import Mathlib

/-!
A shallow embedding of the structural consistency checker in
`scripts/inspect-docx.py` (template-vs-output DOCX comparison).

The XML/ZIP layer is the external "element tree accessor": the model starts
from the extracted entities (paragraph runs, table grids, cell widths/spans),
which the Python helpers `extract_paras`, `_table_grid`, `_table_width`,
`_row_cell_widths`, `_cell_text`, `_footnote_refs` read off the tree.
Python strings are modelled as Lean `String`, with slicing/length by code
points (as in Python); `str.strip()` is modelled as removal of leading and
trailing ASCII whitespace.  Issues, which the script builds as formatted
strings, are modelled as an inductive type carrying the same payload data
that the corresponding f-string interpolates; categories are distinguishable
exactly as the message prefixes distinguish them.
-/

namespace InspectDocx

/-- Whitespace test used to model Python's `str.strip()`. -/
def isSpaceChar (c : Char) : Bool :=
  c = ' ' || c = '\t' || c = '\n' || c = '\r' || c = '\x0b' || c = '\x0c'

/-- Model of Python `str.strip()` on the character list. -/
def trimChars (l : List Char) : List Char :=
  ((l.dropWhile isSpaceChar).reverse.dropWhile isSpaceChar).reverse

/-- Python `s.strip()`. -/
def pyStrip (s : String) : String := String.mk (trimChars s.data)

/-- Python `s.startswith(pre)`. -/
def strStartsWith (s pre : String) : Bool := pre.data.isPrefixOf s.data

/-- Python `s[:n]` (slice by code points). -/
def strTake (s : String) (n : Nat) : String := String.mk (s.data.take n)

/-- Python `len(s)` (code points). -/
def strLen (s : String) : Nat := s.data.length

/-- Python `pat in s` (substring containment). -/
def strContains (s pat : String) : Bool :=
  s.data.tails.any (fun t => pat.data.isPrefixOf t)

/-- Python `sep.join(l)`. -/
def joinSep (sep : String) : List String → String
  | [] => ""
  | [x] => x
  | x :: xs => x ++ sep ++ joinSep sep xs

/-- First occurrence of each element, in order of first appearance (the key
order of a Python `dict` built by insertion). -/
def firstOccs {α : Type} [DecidableEq α] : List α → List α
  | [] => []
  | x :: xs => x :: (firstOccs xs).filter (fun y => decide (y ≠ x))

/-- A paragraph as produced by `extract_paras`: style, the list of run
texts, and whether the paragraph sits in a table cell.  Its text is the
concatenation of the runs. -/
structure Para where
  style : Option String
  runs : List String
  tbl : Bool
deriving Repr, DecidableEq, Inhabited

/-- `"".join(runs)` — the paragraph text. -/
def paraText (p : Para) : String := p.runs.foldl (· ++ ·) ""

/-- A table cell as produced by `_row_cell_widths` / `_cell_text`:
width value and unit kind (`"?"` when absent), `gridSpan` (1 when absent),
and concatenated text. -/
structure Cell where
  w : String
  ty : String
  span : Nat
  text : String
deriving Repr, DecidableEq, Inhabited

/-- Default cell info, matching `{"w": "?", "type": "?", "span": 1}`. -/
def defaultCell : Cell := { w := "?", ty := "?", span := 1, text := "" }

/-- A table: declared grid column widths (`_table_grid`), declared table
width `(w, type)` (`_table_width`), and rows of cells. -/
structure Table where
  grid : List String
  tblW : String × String
  rows : List (List Cell)
deriving Repr, DecidableEq, Inhabited

/-- Table used as a `getD` default (never selected by in-range indices). -/
def emptyTable : Table := { grid := [], tblW := ("?", "?"), rows := [] }

/-- `out_tables[i]` with the usual in-range indices. -/
def tableAt (ts : List Table) (i : Nat) : Table := ts.getD i emptyTable

/-- A document model: paragraphs, tables and footnote reference ids in
document order. -/
structure Document where
  paras : List Para
  tables : List Table
  footnoteRefs : List String
deriving Repr, DecidableEq, Inhabited

/-! ## Command extraction (`find_commands`) -/

/-- Scanner for the regex `\{([^}]+)\}` used by `find_commands`: returns the
inner texts of all non-overlapping matches, left to right.  The state is
`none` outside a candidate match and `some acc` after an opening `{` with
the characters read so far; a `}` closes a match when at least one inner
character was read (the regex requires `[^}]+`), otherwise the failed
opening brace is abandoned exactly as the regex engine does. -/
def scanAux : List Char → Option (List Char) → List String
  | [], _ => []
  | c :: rest, none =>
      if c = '{' then scanAux rest (some []) else scanAux rest none
  | c :: rest, some acc =>
      if c = '}' then
        if acc.isEmpty then scanAux rest none
        else String.mk acc :: scanAux rest none
      else scanAux rest (some (acc ++ [c]))

/-- All `\{([^}]+)\}` match groups in a string. -/
def scanBraces (s : String) : List String := scanAux s.data none

/-- Command kinds.  `ENDFOR` and `ENDIF` stand for the source's
`"END-FOR"` and `"END-IF"` types. -/
inductive Kind where
  | FOR
  | ENDFOR
  | IF
  | ENDIF
  | INS
  | field
deriving Repr, DecidableEq, Inhabited

/-- Classification of the stripped inner text of a match, with the
priority order of `find_commands`. -/
def classify (raw : String) : Kind :=
  if strStartsWith raw "FOR " then Kind.FOR
  else if strStartsWith raw "END-FOR" then Kind.ENDFOR
  else if strStartsWith raw "IF " then Kind.IF
  else if raw = "END-IF" then Kind.ENDIF
  else if strStartsWith raw "INS " then Kind.INS
  else Kind.field

/-- One extracted command: paragraph ordinal, in-table flag, the stripped
inner text, and its classified kind. -/
structure Command where
  para : Nat
  tbl : Bool
  raw : String
  kind : Kind
deriving Repr, DecidableEq, Inhabited

/-- `find_commands`, from the paragraph list: every `\{([^}]+)\}` match of
every paragraph text, in paragraph-then-occurrence order, stripped and
classified. -/
def findCommands (paras : List Para) : List Command :=
  paras.enum.flatMap (fun ip =>
    (scanBraces (paraText ip.2)).map (fun s =>
      let raw := pyStrip s
      { para := ip.1, tbl := ip.2.tbl, raw := raw, kind := classify raw }))

/-- The kinds of the commands found in a single-run, single-paragraph
document with the given text. -/
def commandKinds (s : String) : List Kind :=
  (findCommands [{ style := none, runs := [s], tbl := false }]).map Command.kind

/-! ## Issues

`cmd_compare` appends formatted strings to `issues`; each constructor below
carries the data the corresponding f-string interpolates, in source order of
its section. -/

inductive Issue where
  /-- "Residual loop/control command: {raw}" -/
  | residual (raw : String)
  /-- "Unresolved template field: {raw}" -/
  | unresolvedField (raw : String)
  /-- "Footnote ref id={fid} appears {count}x (duplicated by FOR loop expansion?)" -/
  | dupFootnote (fid : String) (count : Nat)
  /-- "Footnote ref id={fid} has no definition" -/
  | danglingFootnote (fid : String)
  /-- "T[{ti}] '..': grid mismatch — tpl=…, out=…" -/
  | gridMismatch (ti : Nat) (tpl out : List String)
  /-- "T[{ti}] '..': tblW mismatch — tpl=…, out=…" -/
  | tblWMismatch (ti : Nat) (tpl out : String × String)
  /-- "T[{ti}] R{ri}: cell count — tpl=…, out=…" -/
  | cellCountMismatch (ti ri : Nat) (tpl out : Nat)
  /-- "T[{ti}] R{ri} C{ci}: width — tpl=…/…, out=…/…" -/
  | widthMismatch (ti ri ci : Nat) (tplW tplTy outW outTy : String)
  /-- "T[{ti}] R{ri} C{ci}: gridSpan — tpl=…, out=…" -/
  | spanMismatch (ti ri ci : Nat) (tpl out : Nat)
  /-- "FOR-expanded T[{idx}]: grid differs — expected …, got …" -/
  | famGridDiffers (idx : Nat) (expected got : List String)
  /-- "FOR-expanded T[{idx}] R{ri}: cell count … vs T[…] (…)" -/
  | famCellCount (idx ri : Nat) (cur ref : Nat)
  /-- "T[{i}] R{ri}: span=… vs grid=… — cells(…): …" -/
  | spanAnomaly (ti ri : Nat) (span grid ncells : Nat)
deriving Repr, DecidableEq, Inhabited

/-! ## Section 2: residual commands -/

/-- `c["type"] in ("FOR", "END-FOR", "IF", "END-IF", "INS")`. -/
def isControl (k : Kind) : Bool :=
  match k with
  | Kind.field => false
  | _ => true

/-- Issues for residual control commands found in the output. -/
def residualIssues (cmds : List Command) : List Issue :=
  (cmds.filter (fun c => isControl c.kind)).map (fun c => Issue.residual c.raw)

/-- Issues for unresolved `$`-sigil fields found in the output. -/
def unresolvedFieldIssues (cmds : List Command) : List Issue :=
  (cmds.filter (fun c => decide (c.kind = Kind.field) && strStartsWith c.raw "$")).map
    (fun c => Issue.unresolvedField c.raw)

/-! ## Section 3: footnote consistency -/

/-- Duplicate footnote-reference issues: one per distinct id whose
occurrence count exceeds 1 (the Python `fn_counts` dict iterates its keys
in first-occurrence order). -/
def dupFootnoteIssues (refs : List String) : List Issue :=
  (firstOccs refs).flatMap (fun fid =>
    let c := refs.count fid
    if c > 1 then [Issue.dupFootnote fid c] else [])

/-- Dangling-reference issues, when the footnote-definitions part exists.
(Python iterates `set(out_fn_refs)` whose order is unspecified; distinct
ids are taken here in first-occurrence order — only membership is relied
on.) -/
def danglingIssues (refs : List String) (fnDefs : Option (List String)) : List Issue :=
  match fnDefs with
  | none => []
  | some defs =>
      (firstOccs refs).flatMap (fun fid =>
        if defs.contains fid then [] else [Issue.danglingFootnote fid])

/-! ## Table label and matcher -/

/-- `_cell_text`, from the cell's concatenated text. -/
def cellText (c : Cell) : String := pyStrip c.text

/-- `_table_label`: first three cells of row 0, each truncated to 30
characters, the non-empty ones pipe-joined, the join truncated to 60. -/
def tableLabel (t : Table) : String :=
  match t.rows with
  | [] => "(empty table)"
  | r :: _ =>
      let texts := (r.take 3).map (fun c => strTake (cellText c) 30)
      let label := joinSep " | " (texts.filter (fun s => decide (s ≠ "")))
      if strLen label > 60 then strTake label 60 ++ "..." else label

/-- `_find_table_in_output`'s scan: index of the first table whose label
equals the template label. -/
def findTableAux (tables : List Table) (lbl : String) : Option Nat :=
  match tables with
  | [] => none
  | t :: ts =>
      if tableLabel t = lbl then some 0
      else (findTableAux ts lbl).map (· + 1)

/-- `_find_table_in_output` (the unused `tpl_grid` argument is dropped). -/
def findTableInOutput (outTables : List Table) (lbl : String) : Option Nat :=
  findTableAux outTables lbl

/-! ## Section 4: table grid & cell width comparison -/

/-- Per-cell comparison: width/unit pair first, then gridSpan. -/
def cellDiffIssues (ti ri ci : Nat) (tw ow : Cell) : List Issue :=
  (if tw.w ≠ ow.w ∨ tw.ty ≠ ow.ty
   then [Issue.widthMismatch ti ri ci tw.w tw.ty ow.w ow.ty] else [])
  ++ (if tw.span ≠ ow.span then [Issue.spanMismatch ti ri ci tw.span ow.span] else [])

/-- Per-row comparison: a cell-count mismatch yields one row-level issue
and suppresses the per-cell checks. -/
def rowDiffIssues (ti ri : Nat) (tplRow outRow : List Cell) : List Issue :=
  if tplRow.length ≠ outRow.length then
    [Issue.cellCountMismatch ti ri tplRow.length outRow.length]
  else
    (List.range tplRow.length).flatMap (fun ci =>
      cellDiffIssues ti ri ci (tplRow.getD ci defaultCell) (outRow.getD ci defaultCell))

/-- Matched-pair comparison: grid, declared width, then rows over the
overlapping range `min(len(tpl_rows), len(out_rows))`. -/
def tableDiffIssues (ti : Nat) (tpl out : Table) : List Issue :=
  (if tpl.grid ≠ out.grid then [Issue.gridMismatch ti tpl.grid out.grid] else [])
  ++ (if tpl.tblW ≠ out.tblW then [Issue.tblWMismatch ti tpl.tblW out.tblW] else [])
  ++ (List.range (Nat.min tpl.rows.length out.rows.length)).flatMap (fun ri =>
      rowDiffIssues ti ri (tpl.rows.getD ri []) (out.rows.getD ri []))

/-- What section 4 contributes for one template table: skip labels holding
template command text, skip unmatched tables, otherwise diff against the
first label match. -/
def tplTableIssues (outTables : List Table) (ti : Nat) (tpl : Table) : List Issue :=
  let lbl := tableLabel tpl
  if strContains lbl "\x7bFOR" || strContains lbl "\x7b$" then []
  else
    match findTableInOutput outTables lbl with
    | none => []
    | some oi => tableDiffIssues ti tpl (tableAt outTables oi)

/-- Section 4 over all template tables (`enumerate(tpl_tables)`). -/
def sectionFourIssues (tplTables outTables : List Table) : List Issue :=
  (List.range tplTables.length).flatMap (fun ti =>
    tplTableIssues outTables ti (tableAt tplTables ti))

/-! ## Section 5: FOR loop expansion check -/

/-- Indices of the output tables sharing a given grid, in document order
(the values the Python `grid_groups` dict accumulates under the key
`str(tuple(g))`; `str ∘ tuple` is injective on string tuples, so the grid
itself serves as the key). -/
def groupIndices (ts : List Table) (g : List String) : List Nat :=
  (List.range ts.length).filter (fun i => decide ((tableAt ts i).grid = g))

/-- Group keys in first-occurrence order (Python dict key order). -/
def gridKeys (ts : List Table) : List (List String) :=
  firstOccs (ts.map Table.grid)

/-- The loop-expansion families: groups with more than two members
(`if len(indices) <= 2: continue`). -/
def loopFamilies (ts : List Table) : List (List String × List Nat) :=
  ((gridKeys ts).map (fun g => (g, groupIndices ts g))).filter
    (fun p => decide (p.2.length > 2))

/-- The "grid differs" re-check inside a family: each member's grid
against the first member's. -/
def famGridIssues (ts : List Table) (indices : List Nat) : List Issue :=
  match indices with
  | [] => []
  | i0 :: _ =>
      let g0 := (tableAt ts i0).grid
      indices.flatMap (fun idx =>
        if (tableAt ts idx).grid ≠ g0
        then [Issue.famGridDiffers idx g0 (tableAt ts idx).grid] else [])

/-- Row `ri` of family member `idx` against the reference member `i0`. -/
def famRowIssues (ts : List Table) (i0 idx ri : Nat) : List Issue :=
  let refRows := (tableAt ts i0).rows
  let rows := (tableAt ts idx).rows
  if (rows.getD ri []).length ≠ (refRows.getD ri []).length
  then [Issue.famCellCount idx ri (rows.getD ri []).length (refRows.getD ri []).length]
  else []

/-- One later family member `idx` against the reference member `i0`:
members whose row count differs from the reference's are skipped
(`if len(rows) != len(ref_rows): continue`). -/
def famMemberIssues (ts : List Table) (i0 idx : Nat) : List Issue :=
  let refRows := (tableAt ts i0).rows
  let rows := (tableAt ts idx).rows
  if rows.length ≠ refRows.length then []
  else (List.range rows.length).flatMap (famRowIssues ts i0 idx)

/-- Cell-count comparison of each later family member against the first. -/
def famCellCountIssues (ts : List Table) (indices : List Nat) : List Issue :=
  match indices with
  | [] => []
  | i0 :: rest => rest.flatMap (famMemberIssues ts i0)

/-- Section 5 over all families. -/
def loopFamilyIssues (ts : List Table) : List Issue :=
  (loopFamilies ts).flatMap (fun p =>
    famGridIssues ts p.2 ++ famCellCountIssues ts p.2)

/-! ## Section 6: row cell count anomalies -/

/-- Span sum of a row's cells. -/
def rowSpanSum (row : List Cell) : Nat := (row.map Cell.span).sum

/-- Row `ri` of output table `i`: one issue when the span sum differs from
the grid column count. -/
def spanRowIssues (ts : List Table) (i ri : Nat) : List Issue :=
  let t := tableAt ts i
  let row := t.rows.getD ri []
  let total := rowSpanSum row
  if total ≠ t.grid.length
  then [Issue.spanAnomaly i ri total t.grid.length row.length] else []

/-- Output table `i`: skipped when the grid is unknown (empty). -/
def spanTableIssues (ts : List Table) (i : Nat) : List Issue :=
  let t := tableAt ts i
  if t.grid.length = 0 then []
  else (List.range t.rows.length).flatMap (spanRowIssues ts i)

/-- Section 6: for every output table with a non-empty grid, every row
whose span sum differs from the grid column count yields one issue. -/
def spanAnomalies (ts : List Table) : List Issue :=
  (List.range ts.length).flatMap (spanTableIssues ts)

/-! ## `cmd_compare`: the full issue list, in source append order -/

/-- All issues of one comparison run, in the order `cmd_compare` appends
them: residual commands, unresolved fields, duplicate footnote refs,
dangling footnote refs (when the definitions part exists), matched-table
structural diffs, loop-family checks, row-span anomalies. -/
def compareIssues (tpl out : Document) (fnDefs : Option (List String)) : List Issue :=
  residualIssues (findCommands out.paras)
  ++ unresolvedFieldIssues (findCommands out.paras)
  ++ dupFootnoteIssues out.footnoteRefs
  ++ danglingIssues out.footnoteRefs fnDefs
  ++ sectionFourIssues tpl.tables out.tables
  ++ loopFamilyIssues out.tables
  ++ spanAnomalies out.tables

/-! ## Issue-category predicates -/

/-- Selects the §4 per-row / per-cell issues of table `ti`, row `ri`. -/
def mentionsRow (ti ri : Nat) : Issue → Bool
  | Issue.cellCountMismatch t r _ _ => decide (t = ti) && decide (r = ri)
  | Issue.widthMismatch t r _ _ _ _ _ => decide (t = ti) && decide (r = ri)
  | Issue.spanMismatch t r _ _ _ => decide (t = ti) && decide (r = ri)
  | _ => false

/-- Selects the §6 span anomaly of table `i`, row `ri`. -/
def isSpanAnomalyAt (i ri : Nat) : Issue → Bool
  | Issue.spanAnomaly t r _ _ _ => decide (t = i) && decide (r = ri)
  | _ => false

/-- Selects the duplicate-footnote issue for a given id. -/
def isDupFor (fid : String) : Issue → Bool
  | Issue.dupFootnote f _ => decide (f = fid)
  | _ => false

/-- Selects the within-family "grid differs" issues. -/
def isFamGrid : Issue → Bool
  | Issue.famGridDiffers _ _ _ => true
  | _ => false

/-- Selects the template-vs-output mismatch issues of §4 (grid,
table-width, cell-width, span, cell-count) and the residual-command
issues (residual control command, unresolved field). -/
def isMatchOrResidual : Issue → Bool
  | Issue.residual _ => true
  | Issue.unresolvedField _ => true
  | Issue.gridMismatch _ _ _ => true
  | Issue.tblWMismatch _ _ _ => true
  | Issue.cellCountMismatch _ _ _ _ => true
  | Issue.widthMismatch _ _ _ _ _ _ _ => true
  | Issue.spanMismatch _ _ _ _ _ => true
  | _ => false

/-! ## Concrete example inputs used by witnesses and counterexamples -/

/-- A paragraph holding only the unresolved field text `{$module.code}`. -/
def modulePara : Para := { style := none, runs := ["{$module.code}"], tbl := false }

/-- The command `find_commands` extracts from `modulePara`. -/
def moduleCmd : Command :=
  { para := 0, tbl := false, raw := "$module.code", kind := Kind.field }

/-- A header cell with text `Hdr`. -/
def hdrCell : Cell := { w := "100", ty := "dxa", span := 1, text := "Hdr" }

/-- A labelled table with grid `["100"]`. -/
def dupT1 : Table := { grid := ["100"], tblW := ("100", "dxa"), rows := [[hdrCell]] }

/-- Same label as `dupT1` (same first row) but a different grid. -/
def dupT2 : Table := { grid := ["999"], tblW := ("999", "dxa"), rows := [[hdrCell]] }

/-- A table whose label matches nothing above. -/
def unmatchedT : Table :=
  { grid := ["5"], tblW := ("?", "?"),
    rows := [[{ w := "?", ty := "?", span := 1, text := "Nope" }]] }

/-- A cell used to build row-shape examples. -/
def c4cell : Cell := { w := "100", ty := "dxa", span := 1, text := "A" }

/-- Template-side table with two rows. -/
def c4tpl : Table :=
  { grid := ["100"], tblW := ("100", "dxa"), rows := [[c4cell], [c4cell]] }

/-- Output-side table with one row (row 1 is beyond the overlap). -/
def c4out : Table := { grid := ["100"], tblW := ("100", "dxa"), rows := [[c4cell]] }

/-- Template-side table whose row 1 has two cells. -/
def c4tplB : Table :=
  { grid := ["100"], tblW := ("100", "dxa"), rows := [[c4cell], [c4cell, c4cell]] }

/-- Output-side table whose row 1 has one cell (overlap row with a
cell-count mismatch). -/
def c4outB : Table :=
  { grid := ["100"], tblW := ("100", "dxa"), rows := [[c4cell], [c4cell]] }

/-- A content cell for the loop-family examples. -/
def famCell : Cell := { w := "?", ty := "?", span := 1, text := "x" }

/-- Loop-family reference member: grid `["100","200"]`, two rows of two
cells. -/
def famT0 : Table :=
  { grid := ["100", "200"], tblW := ("?", "?"),
    rows := [[famCell, famCell], [famCell, famCell]] }

/-- Family member whose row count differs from the reference (one row of
three cells). -/
def famT1 : Table :=
  { grid := ["100", "200"], tblW := ("?", "?"),
    rows := [[famCell, famCell, famCell]] }

/-- Family member with the reference's row count but a divergent cell
count in row 1. -/
def famT2 : Table :=
  { grid := ["100", "200"], tblW := ("?", "?"),
    rows := [[famCell, famCell], [famCell, famCell, famCell]] }

/-- Three tables sharing the grid `["9"]` (a loop family). -/
def nineT : Table :=
  { grid := ["9"], tblW := ("?", "?"), rows := [[famCell]] }

/-- A table for the span examples: two declared columns, row 0 sums to 2,
row 1 sums to 1. -/
def spanTableEx : Table :=
  { grid := ["100", "200"], tblW := ("?", "?"),
    rows := [[{ w := "100", ty := "dxa", span := 1, text := "a" },
              { w := "200", ty := "dxa", span := 1, text := "b" }],
             [{ w := "100", ty := "dxa", span := 1, text := "c" }]] }

/-- Self-comparison counterexample document: two tables with identical
labels but different grids, no commands, no footnotes. -/
def c1doc : Document := { paras := [], tables := [dupT1, dupT2], footnoteRefs := [] }

/-- A well-formed document: pairwise distinct table labels, a plain field
command, a duplicated footnote reference. -/
def c1good : Document :=
  { paras := [{ style := none, runs := ["{name}"], tbl := false }],
    tables := [dupT1, unmatchedT],
    footnoteRefs := ["3", "3"] }

/-! ## General list helpers -/

lemma flatMap_eq_nil_of {α β : Type} (l : List α) (f : α → List β)
    (h : ∀ a ∈ l, f a = []) : l.flatMap f = [] := by
  induction l with
  | nil => rfl
  | cons x xs ih =>
      rw [List.flatMap_cons, h x (List.mem_cons_self x xs),
        ih (fun a ha => h a (List.mem_cons_of_mem x ha))]
      rfl

lemma flatMap_eq_single_of {α β : Type} [DecidableEq α] (keys : List α)
    (f : α → List β) (k : α) (h : ∀ x, x ≠ k → f x = []) (hnd : keys.Nodup) :
    keys.flatMap f = if k ∈ keys then f k else [] := by
  induction keys with
  | nil => simp
  | cons x xs ih =>
      rcases List.nodup_cons.mp hnd with ⟨hx, hxs⟩
      rw [List.flatMap_cons, ih hxs]
      by_cases hxk : x = k
      · have hnot : k ∉ xs := hxk ▸ hx
        have hkmem : k ∈ x :: xs := hxk ▸ List.mem_cons_self x xs
        rw [if_neg hnot, if_pos hkmem, hxk, List.append_nil]
      · rw [h x hxk]
        by_cases hk : k ∈ xs
        · simp [hk, hxk]
        · have : k ∉ x :: xs := by
            intro hc
            rcases List.mem_cons.mp hc with h1 | h2
            · exact hxk h1.symm
            · exact hk h2
          simp [hk, this]

lemma range_flatMap_single {β : Type} (n k : Nat) (g : Nat → List β)
    (h : ∀ x, x ≠ k → g x = []) :
    (List.range n).flatMap g = if k < n then g k else [] := by
  rw [flatMap_eq_single_of (List.range n) g k h (List.nodup_range n)]
  simp [List.mem_range]

lemma mem_firstOccs {α : Type} [DecidableEq α] (a : α) (l : List α) :
    a ∈ firstOccs l ↔ a ∈ l := by
  induction l with
  | nil => simp [firstOccs]
  | cons x xs ih =>
      simp only [firstOccs, List.mem_cons, List.mem_filter, decide_eq_true_eq]
      constructor
      · rintro (rfl | ⟨hmem, _⟩)
        · exact Or.inl rfl
        · exact Or.inr (ih.mp hmem)
      · rintro (rfl | hmem)
        · exact Or.inl rfl
        · by_cases hax : a = x
          · exact Or.inl hax
          · exact Or.inr ⟨ih.mpr hmem, hax⟩

lemma firstOccs_nodup {α : Type} [DecidableEq α] (l : List α) :
    (firstOccs l).Nodup := by
  induction l with
  | nil => simp [firstOccs]
  | cons x xs ih =>
      refine List.nodup_cons.mpr ⟨?_, List.Nodup.filter _ ih⟩
      intro hmem
      have := (List.mem_filter.mp hmem).2
      simp at this

lemma tableAt_cons_zero (t : Table) (ts : List Table) : tableAt (t :: ts) 0 = t := rfl

lemma tableAt_cons_succ (t : Table) (ts : List Table) (j : Nat) :
    tableAt (t :: ts) (j + 1) = tableAt ts j := rfl

lemma tableAt_mem (ts : List Table) (j : Nat) (hj : j < ts.length) :
    tableAt ts j ∈ ts := by
  rw [tableAt, List.getD_eq_getElem ts emptyTable hj]
  exact List.getElem_mem hj

/-! ## Matcher helper lemmas -/

lemma findTableAux_some_spec (tables : List Table) (lbl : String) :
    ∀ i, findTableAux tables lbl = some i →
      i < tables.length ∧ tableLabel (tableAt tables i) = lbl ∧
        ∀ j, j < i → tableLabel (tableAt tables j) ≠ lbl := by
  induction tables with
  | nil => intro i h; simp [findTableAux] at h
  | cons t ts ih =>
      intro i h
      by_cases ht : tableLabel t = lbl
      · have : findTableAux (t :: ts) lbl = some 0 := by
          simp [findTableAux, ht]
        rw [this] at h
        cases h
        exact ⟨Nat.succ_pos _, ht, fun j hj => absurd hj (Nat.not_lt_zero j)⟩
      · have heq : findTableAux (t :: ts) lbl = (findTableAux ts lbl).map (· + 1) := by
          simp [findTableAux, ht]
        rw [heq] at h
        cases hrec : findTableAux ts lbl with
        | none => rw [hrec] at h; cases h
        | some i' =>
            rw [hrec] at h
            have h' : some (i' + 1) = some i := h
            cases h'
            rcases ih i' hrec with ⟨hlen, hlbl, hmin⟩
            refine ⟨Nat.succ_lt_succ hlen, hlbl, ?_⟩
            intro j hj
            cases j with
            | zero => exact ht
            | succ j' =>
                rw [tableAt_cons_succ]
                exact hmin j' (Nat.lt_of_succ_lt_succ hj)

lemma findTableAux_none_spec (tables : List Table) (lbl : String)
    (h : findTableAux tables lbl = none) :
    ∀ j, j < tables.length → tableLabel (tableAt tables j) ≠ lbl := by
  induction tables with
  | nil => intro j hj; exact absurd hj (Nat.not_lt_zero j)
  | cons t ts ih =>
      by_cases ht : tableLabel t = lbl
      · simp [findTableAux, ht] at h
      · have heq : findTableAux (t :: ts) lbl = (findTableAux ts lbl).map (· + 1) := by
          simp [findTableAux, ht]
        rw [heq] at h
        cases hrec : findTableAux ts lbl with
        | none =>
            intro j hj
            cases j with
            | zero => exact ht
            | succ j' =>
                rw [tableAt_cons_succ]
                exact ih hrec j' (Nat.lt_of_succ_lt_succ hj)
        | some i' => rw [hrec] at h; cases h

lemma findTableAux_self (ts : List Table) (hnd : (ts.map tableLabel).Nodup) :
    ∀ ti, ti < ts.length → findTableAux ts (tableLabel (tableAt ts ti)) = some ti := by
  induction ts with
  | nil => intro ti h; simp at h
  | cons t rest ih =>
      intro ti hti
      have hnd' : (tableLabel t :: rest.map tableLabel).Nodup := by
        rw [List.map_cons] at hnd; exact hnd
      rcases List.nodup_cons.mp hnd' with ⟨hx, hxs⟩
      cases ti with
      | zero => simp [findTableAux, tableAt_cons_zero]
      | succ j =>
          rw [tableAt_cons_succ]
          have hj : j < rest.length := Nat.lt_of_succ_lt_succ hti
          have hne : tableLabel t ≠ tableLabel (tableAt rest j) := by
            intro hc
            exact hx (hc ▸ List.mem_map_of_mem tableLabel (tableAt_mem rest j hj))
          have : findTableAux (t :: rest) (tableLabel (tableAt rest j)) =
              (findTableAux rest (tableLabel (tableAt rest j))).map (· + 1) := by
            simp [findTableAux, hne]
          rw [this, ih hxs j hj]
          rfl

/-! ## Command pipeline helper lemmas -/

lemma findCommands_kind (paras : List Para) :
    ∀ c ∈ findCommands paras, c.kind = classify c.raw := by
  intro c hc
  rcases List.mem_flatMap.mp hc with ⟨ip, _, hmem⟩
  rcases List.mem_map.mp hmem with ⟨s, _, hceq⟩
  rw [← hceq]

/-! ## Reflexive-diff helper lemmas -/

lemma cellDiffIssues_self (ti ri ci : Nat) (c : Cell) :
    cellDiffIssues ti ri ci c c = [] := by
  simp [cellDiffIssues]

lemma rowDiffIssues_self (ti ri : Nat) (r : List Cell) :
    rowDiffIssues ti ri r r = [] := by
  rw [rowDiffIssues, if_neg (by simp)]
  exact flatMap_eq_nil_of _ _ (fun ci _ => cellDiffIssues_self ti ri ci _)

lemma tableDiffIssues_self (ti : Nat) (t : Table) :
    tableDiffIssues ti t t = [] := by
  rw [tableDiffIssues, if_neg (by simp), if_neg (by simp)]
  rw [flatMap_eq_nil_of _ _ (fun ri _ => rowDiffIssues_self ti ri _)]
  rfl

/-! ## Shape lemmas: which constructors each checker can emit -/

lemma mem_dupFootnoteIssues_shape (refs : List String) (iss : Issue)
    (h : iss ∈ dupFootnoteIssues refs) : ∃ f c, iss = Issue.dupFootnote f c := by
  rcases List.mem_flatMap.mp h with ⟨fid, _, hmem⟩
  by_cases hc : refs.count fid > 1
  · rw [if_pos hc] at hmem
    rcases List.mem_singleton.mp hmem with rfl
    exact ⟨fid, refs.count fid, rfl⟩
  · rw [if_neg hc] at hmem
    cases hmem

lemma mem_danglingIssues_shape (refs : List String) (fnDefs : Option (List String))
    (iss : Issue) (h : iss ∈ danglingIssues refs fnDefs) :
    ∃ f, iss = Issue.danglingFootnote f := by
  cases fnDefs with
  | none => cases h
  | some defs =>
      rcases List.mem_flatMap.mp h with ⟨fid, _, hmem⟩
      by_cases hc : defs.contains fid
      · rw [if_pos hc] at hmem; cases hmem
      · rw [if_neg hc] at hmem
        rcases List.mem_singleton.mp hmem with rfl
        exact ⟨fid, rfl⟩

lemma mem_famGridIssues_shape (ts : List Table) (indices : List Nat) (iss : Issue)
    (h : iss ∈ famGridIssues ts indices) : ∃ i e g, iss = Issue.famGridDiffers i e g := by
  cases indices with
  | nil => cases h
  | cons i0 rest =>
      rcases List.mem_flatMap.mp h with ⟨idx, _, hmem⟩
      by_cases hc : (tableAt ts idx).grid ≠ (tableAt ts i0).grid
      · rw [if_pos hc] at hmem
        rcases List.mem_singleton.mp hmem with rfl
        exact ⟨idx, _, _, rfl⟩
      · rw [if_neg hc] at hmem; cases hmem

lemma mem_famRowIssues_shape (ts : List Table) (i0 idx ri : Nat) (iss : Issue)
    (h : iss ∈ famRowIssues ts i0 idx ri) :
    iss = Issue.famCellCount idx ri ((tableAt ts idx).rows.getD ri []).length
      ((tableAt ts i0).rows.getD ri []).length ∧
    ((tableAt ts idx).rows.getD ri []).length ≠ ((tableAt ts i0).rows.getD ri []).length := by
  rw [famRowIssues] at h
  by_cases hc : ((tableAt ts idx).rows.getD ri []).length ≠
      ((tableAt ts i0).rows.getD ri []).length
  · rw [if_pos hc] at h
    exact ⟨List.mem_singleton.mp h, hc⟩
  · rw [if_neg hc] at h; cases h

lemma mem_famMemberIssues_shape (ts : List Table) (i0 idx : Nat) (iss : Issue)
    (h : iss ∈ famMemberIssues ts i0 idx) :
    (tableAt ts idx).rows.length = (tableAt ts i0).rows.length ∧
    ∃ ri, ri < (tableAt ts idx).rows.length ∧
      iss = Issue.famCellCount idx ri ((tableAt ts idx).rows.getD ri []).length
        ((tableAt ts i0).rows.getD ri []).length ∧
      ((tableAt ts idx).rows.getD ri []).length ≠ ((tableAt ts i0).rows.getD ri []).length := by
  rw [famMemberIssues] at h
  by_cases hc : (tableAt ts idx).rows.length = (tableAt ts i0).rows.length
  · rw [if_neg (by simpa using hc)] at h
    rcases List.mem_flatMap.mp h with ⟨ri, hri, hmem⟩
    rcases mem_famRowIssues_shape ts i0 idx ri iss hmem with ⟨heq, hne⟩
    exact ⟨hc, ri, List.mem_range.mp hri, heq, hne⟩
  · rw [if_pos (by simpa using hc)] at h; cases h

lemma mem_famCellCountIssues_shape (ts : List Table) (indices : List Nat) (iss : Issue)
    (h : iss ∈ famCellCountIssues ts indices) :
    ∃ i r a b, iss = Issue.famCellCount i r a b := by
  cases indices with
  | nil => cases h
  | cons i0 rest =>
      rcases List.mem_flatMap.mp h with ⟨idx, _, hmem⟩
      rcases mem_famMemberIssues_shape ts i0 idx iss hmem with ⟨_, ri, _, heq, _⟩
      exact ⟨idx, ri, _, _, heq⟩

lemma mem_spanRowIssues_shape (ts : List Table) (i ri : Nat) (iss : Issue)
    (h : iss ∈ spanRowIssues ts i ri) :
    iss = Issue.spanAnomaly i ri (rowSpanSum ((tableAt ts i).rows.getD ri []))
      (tableAt ts i).grid.length ((tableAt ts i).rows.getD ri []).length ∧
    rowSpanSum ((tableAt ts i).rows.getD ri []) ≠ (tableAt ts i).grid.length := by
  rw [spanRowIssues] at h
  by_cases hc : rowSpanSum ((tableAt ts i).rows.getD ri []) ≠ (tableAt ts i).grid.length
  · rw [if_pos hc] at h
    exact ⟨List.mem_singleton.mp h, hc⟩
  · rw [if_neg hc] at h; cases h

lemma mem_spanTableIssues_shape (ts : List Table) (i : Nat) (iss : Issue)
    (h : iss ∈ spanTableIssues ts i) :
    (tableAt ts i).grid.length ≠ 0 ∧
    ∃ ri, ri < (tableAt ts i).rows.length ∧
      iss = Issue.spanAnomaly i ri (rowSpanSum ((tableAt ts i).rows.getD ri []))
        (tableAt ts i).grid.length ((tableAt ts i).rows.getD ri []).length ∧
      rowSpanSum ((tableAt ts i).rows.getD ri []) ≠ (tableAt ts i).grid.length := by
  rw [spanTableIssues] at h
  by_cases hc : (tableAt ts i).grid.length = 0
  · rw [if_pos hc] at h; cases h
  · rw [if_neg hc] at h
    rcases List.mem_flatMap.mp h with ⟨ri, hri, hmem⟩
    rcases mem_spanRowIssues_shape ts i ri iss hmem with ⟨heq, hne⟩
    exact ⟨hc, ri, List.mem_range.mp hri, heq, hne⟩

lemma mem_spanAnomalies_shape (ts : List Table) (iss : Issue)
    (h : iss ∈ spanAnomalies ts) : ∃ i r s g n, iss = Issue.spanAnomaly i r s g n := by
  rcases List.mem_flatMap.mp h with ⟨i, _, hmem⟩
  rcases mem_spanTableIssues_shape ts i iss hmem with ⟨_, ri, _, heq, _⟩
  exact ⟨i, ri, _, _, _, heq⟩

/-! ## §4 row-filter helper lemmas -/

lemma mem_cellDiffIssues_mentions (ti ri ci t' r' : Nat) (tw ow : Cell) (iss : Issue)
    (h : iss ∈ cellDiffIssues ti ri ci tw ow) :
    mentionsRow t' r' iss = (decide (ti = t') && decide (ri = r')) := by
  rw [cellDiffIssues] at h
  rcases List.mem_append.mp h with h1 | h2
  · by_cases hc : tw.w ≠ ow.w ∨ tw.ty ≠ ow.ty
    · rw [if_pos hc] at h1
      rcases List.mem_singleton.mp h1 with rfl
      rfl
    · rw [if_neg hc] at h1; cases h1
  · by_cases hc : tw.span ≠ ow.span
    · rw [if_pos hc] at h2
      rcases List.mem_singleton.mp h2 with rfl
      rfl
    · rw [if_neg hc] at h2; cases h2

lemma mem_rowDiffIssues_mentions (ti ri t' r' : Nat) (a b : List Cell) (iss : Issue)
    (h : iss ∈ rowDiffIssues ti ri a b) :
    mentionsRow t' r' iss = (decide (ti = t') && decide (ri = r')) := by
  rw [rowDiffIssues] at h
  by_cases hc : a.length ≠ b.length
  · rw [if_pos hc] at h
    rcases List.mem_singleton.mp h with rfl
    rfl
  · rw [if_neg hc] at h
    rcases List.mem_flatMap.mp h with ⟨ci, _, hmem⟩
    exact mem_cellDiffIssues_mentions ti ri ci t' r' _ _ iss hmem

lemma filter_rowDiff_ne (ti ri ri' : Nat) (a b : List Cell) (h : ri' ≠ ri) :
    (rowDiffIssues ti ri' a b).filter (mentionsRow ti ri) = [] :=
  List.filter_eq_nil_iff.mpr fun iss hm => by
    rw [mem_rowDiffIssues_mentions ti ri' ti ri a b iss hm]
    simp [h]

lemma filter_rowDiff_self (ti ri : Nat) (a b : List Cell) :
    (rowDiffIssues ti ri a b).filter (mentionsRow ti ri) = rowDiffIssues ti ri a b :=
  List.filter_eq_self.mpr fun iss hm => by
    rw [mem_rowDiffIssues_mentions ti ri ti ri a b iss hm]
    simp

/-! ## Claim theorems -/

/-- C2: command classification follows the stated prefix-priority order on
the trimmed inner text of every `{...}` match — starts with `FOR ` → FOR;
else starts with `END-FOR` → END-FOR; else starts with `IF ` → IF; else
equals `END-IF` → END-IF; else starts with `INS ` → INS; otherwise field —
and `{FORfoo}` (no space after FOR) is classified as field, not FOR. -/
theorem C2_command_classification :
    (∀ raw : String, strStartsWith raw "FOR " = true → classify raw = Kind.FOR)
  ∧ (∀ raw : String, strStartsWith raw "FOR " = false →
      strStartsWith raw "END-FOR" = true → classify raw = Kind.ENDFOR)
  ∧ (∀ raw : String, strStartsWith raw "FOR " = false →
      strStartsWith raw "END-FOR" = false →
      strStartsWith raw "IF " = true → classify raw = Kind.IF)
  ∧ (∀ raw : String, strStartsWith raw "FOR " = false →
      strStartsWith raw "END-FOR" = false →
      strStartsWith raw "IF " = false → raw = "END-IF" → classify raw = Kind.ENDIF)
  ∧ (∀ raw : String, strStartsWith raw "FOR " = false →
      strStartsWith raw "END-FOR" = false →
      strStartsWith raw "IF " = false → raw ≠ "END-IF" →
      strStartsWith raw "INS " = true → classify raw = Kind.INS)
  ∧ (∀ raw : String, strStartsWith raw "FOR " = false →
      strStartsWith raw "END-FOR" = false →
      strStartsWith raw "IF " = false → raw ≠ "END-IF" →
      strStartsWith raw "INS " = false → classify raw = Kind.field)
  ∧ commandKinds "{FOR x IN y}" = [Kind.FOR]
  ∧ commandKinds "{END-FOR x}" = [Kind.ENDFOR]
  ∧ commandKinds "{IF cond}" = [Kind.IF]
  ∧ commandKinds "{END-IF}" = [Kind.ENDIF]
  ∧ commandKinds "{INS x}" = [Kind.INS]
  ∧ commandKinds "{field_name}" = [Kind.field]
  ∧ commandKinds "{FORfoo}" = [Kind.field] := by
  refine ⟨?_, ?_, ?_, ?_, ?_, ?_, ?_, ?_, ?_, ?_, ?_, ?_, ?_⟩
  · intro raw h1; simp [classify, h1]
  · intro raw h1 h2; simp [classify, h1, h2]
  · intro raw h1 h2 h3; simp [classify, h1, h2, h3]
  · intro raw h1 h2 h3 h4; subst h4; decide
  · intro raw h1 h2 h3 h4 h5; simp [classify, h1, h2, h3, h4, h5]
  · intro raw h1 h2 h3 h4 h5; simp [classify, h1, h2, h3, h4, h5]
  · decide
  · decide
  · decide
  · decide
  · decide
  · decide
  · decide

/-- Witness for C2: the classification clauses applied at concrete inner
texts. -/
theorem C2_command_classification_witness :
    classify "FOR x IN y" = Kind.FOR ∧ classify "FORfoo" = Kind.field :=
  ⟨C2_command_classification.1 "FOR x IN y" (by decide),
   C2_command_classification.2.2.2.2.2.1 "FORfoo" (by decide) (by decide)
     (by decide) (by decide) (by decide)⟩

/-- C3: over the commands extracted from an output document's paragraphs,
a residual-control-command issue for a command's raw text exists iff its
kind is one of FOR/END-FOR/IF/END-IF/INS, and an unresolved-field issue
exists iff its kind is field and its raw text begins with `$`; an output
containing exactly `{$module.code}` produces exactly one unresolved-field
issue naming that raw text (and no residual-command issue). -/
theorem C3_command_resolution (paras : List Para) (c : Command)
    (hc : c ∈ findCommands paras) :
    ((Issue.residual c.raw ∈ residualIssues (findCommands paras)) ↔
      isControl c.kind = true)
  ∧ ((Issue.unresolvedField c.raw ∈ unresolvedFieldIssues (findCommands paras)) ↔
      (c.kind = Kind.field ∧ strStartsWith c.raw "$" = true))
  ∧ unresolvedFieldIssues (findCommands [modulePara]) =
      [Issue.unresolvedField "$module.code"]
  ∧ residualIssues (findCommands [modulePara]) = [] := by
  refine ⟨⟨?_, ?_⟩, ⟨?_, ?_⟩, by decide, by decide⟩
  · intro h
    rcases List.mem_map.mp h with ⟨c', hc', heq⟩
    rcases List.mem_filter.mp hc' with ⟨hmem', hctl'⟩
    have hraw : c'.raw = c.raw := by
      injection heq
    have : c.kind = c'.kind := by
      rw [findCommands_kind paras c hc, findCommands_kind paras c' hmem', hraw]
    rw [this]
    exact hctl'
  · intro h
    exact List.mem_map_of_mem _ (List.mem_filter.mpr ⟨hc, h⟩)
  · intro h
    rcases List.mem_map.mp h with ⟨c', hc', heq⟩
    rcases List.mem_filter.mp hc' with ⟨hmem', hpred'⟩
    have hraw : c'.raw = c.raw := by
      injection heq
    rcases Bool.and_eq_true_iff.mp hpred' with ⟨hk', hs'⟩
    have hkind : c.kind = c'.kind := by
      rw [findCommands_kind paras c hc, findCommands_kind paras c' hmem', hraw]
    refine ⟨?_, hraw ▸ hs'⟩
    rw [hkind]
    exact of_decide_eq_true hk'
  · intro h
    refine List.mem_map_of_mem _ (List.mem_filter.mpr ⟨hc, ?_⟩)
    exact Bool.and_eq_true_iff.mpr ⟨decide_eq_true h.1, h.2⟩

/-- Witness for C3: the unresolved-field iff applied to the
`{$module.code}` document and its extracted command. -/
theorem C3_command_resolution_witness :
    Issue.unresolvedField "$module.code" ∈
      unresolvedFieldIssues (findCommands [modulePara]) :=
  (C3_command_resolution [modulePara] moduleCmd (by decide)).2.1.mpr
    ⟨rfl, by decide⟩

/-- C5: the matcher returns the index of the first output table (in
document order) whose label equals the template label — so duplicate
labels resolve to the first occurrence — and when no output table's label
matches, the template table contributes no per-table diff issues (no
error is raised: the embedding is total). -/
theorem C5_table_matching (outs : List Table) (lbl : String) (ti : Nat) (tpl : Table) :
    (∀ i, findTableInOutput outs lbl = some i →
      i < outs.length ∧ tableLabel (tableAt outs i) = lbl ∧
        ∀ j, j < i → tableLabel (tableAt outs j) ≠ lbl)
  ∧ (findTableInOutput outs lbl = none →
      ∀ j, j < outs.length → tableLabel (tableAt outs j) ≠ lbl)
  ∧ (findTableInOutput outs (tableLabel tpl) = none →
      tplTableIssues outs ti tpl = []) := by
  refine ⟨findTableAux_some_spec outs lbl, findTableAux_none_spec outs lbl, ?_⟩
  intro hnone
  rw [tplTableIssues]
  by_cases hskip : (strContains (tableLabel tpl) "\x7bFOR"
      || strContains (tableLabel tpl) "\x7b$") = true
  · simp [hskip]
  · simp only [Bool.not_eq_true] at hskip
    simp [hskip, findTableInOutput] at hnone ⊢
    rw [hnone]

/-- Witness for C5: with two identically labelled output tables the
matcher picks index 0, and an unmatched template table contributes no
issues. -/
theorem C5_table_matching_witness :
    (0 < ([dupT1, dupT2] : List Table).length ∧
      tableLabel (tableAt [dupT1, dupT2] 0) = tableLabel dupT1 ∧
      ∀ j, j < 0 → tableLabel (tableAt [dupT1, dupT2] j) ≠ tableLabel dupT1)
  ∧ tplTableIssues [dupT1, dupT2] 3 unmatchedT = [] :=
  ⟨(C5_table_matching [dupT1, dupT2] (tableLabel dupT1) 3 unmatchedT).1 0 (by decide),
   (C5_table_matching [dupT1, dupT2] (tableLabel dupT1) 3 unmatchedT).2.2 (by decide)⟩

/-- C6: exactly two output tables sharing a structural signature (grid
vector) are never a loop-expansion family; three or more sharing one
always are. -/
theorem C6_family_threshold (ts : List Table) (g : List String) :
    ((groupIndices ts g).length = 2 → ∀ p ∈ loopFamilies ts, p.1 ≠ g)
  ∧ (3 ≤ (groupIndices ts g).length → (g, groupIndices ts g) ∈ loopFamilies ts) := by
  constructor
  · intro h2 p hp heq
    rcases List.mem_filter.mp hp with ⟨hpmap, hplen⟩
    rcases List.mem_map.mp hpmap with ⟨k, _, hpk⟩
    have hk : k = g := by rw [← hpk] at heq; exact heq
    have hsnd : p.2 = groupIndices ts g := by rw [← hpk, hk]
    have := of_decide_eq_true hplen
    rw [hsnd, h2] at this
    exact absurd this (by norm_num)
  · intro h3
    have hpos : 0 < (groupIndices ts g).length := by omega
    rcases List.exists_mem_of_length_pos hpos with ⟨i, hi⟩
    rcases List.mem_filter.mp hi with ⟨hir, hig⟩
    have hgrid : (tableAt ts i).grid = g := of_decide_eq_true hig
    have hkey : g ∈ gridKeys ts := by
      rw [gridKeys, mem_firstOccs]
      exact hgrid ▸ List.mem_map_of_mem Table.grid
        (tableAt_mem ts i (List.mem_range.mp hir))
    refine List.mem_filter.mpr ⟨List.mem_map_of_mem _ hkey, ?_⟩
    show decide ((groupIndices ts g).length > 2) = true
    exact decide_eq_true (by omega)

/-- Witness for C6: three tables with the grid `["9"]` form a family. -/
theorem C6_family_threshold_witness :
    (["9"], groupIndices [nineT, nineT, nineT] ["9"]) ∈
      loopFamilies [nineT, nineT, nineT] :=
  (C6_family_threshold [nineT, nineT, nineT] ["9"]).2 (by decide)

/-- C9: duplicate footnote-reference detection emits exactly one issue
per distinct identifier occurring more than once (naming its occurrence
count) and none for identifiers occurring at most once; refs
`["3","3","4"]` yield exactly the one duplicate issue for `"3"`. -/
theorem C9_duplicate_footnotes (refs : List String) (fid : String) :
    (1 < List.count fid refs →
      (dupFootnoteIssues refs).filter (isDupFor fid) =
        [Issue.dupFootnote fid (List.count fid refs)])
  ∧ (List.count fid refs ≤ 1 →
      (dupFootnoteIssues refs).filter (isDupFor fid) = [])
  ∧ dupFootnoteIssues ["3", "3", "4"] = [Issue.dupFootnote "3" 2] := by
  have hbase :
      (dupFootnoteIssues refs).filter (isDupFor fid) =
        if fid ∈ firstOccs refs
        then (if 1 < List.count fid refs
              then [Issue.dupFootnote fid (List.count fid refs)] else []).filter
               (isDupFor fid)
        else [] := by
    rw [dupFootnoteIssues, List.filter_flatMap]
    exact flatMap_eq_single_of (firstOccs refs) _ fid
      (fun k hk => by
        by_cases hc : 1 < List.count k refs
        · simp only [gt_iff_lt, hc, if_pos]
          rw [List.filter_eq_nil_iff]
          intro iss hiss
          rcases List.mem_singleton.mp hiss with rfl
          simp [isDupFor, hk]
        · simp only [gt_iff_lt, hc, if_neg, if_false]
          rfl)
      (firstOccs_nodup refs)
  refine ⟨?_, ?_, by decide⟩
  · intro hgt
    have hmem : fid ∈ firstOccs refs := by
      rw [mem_firstOccs]
      exact List.count_pos_iff.mp (by omega)
    rw [hbase, if_pos hmem, if_pos hgt]
    simp [isDupFor]
  · intro hle
    have : ¬ 1 < List.count fid refs := by omega
    rw [hbase]
    by_cases hmem : fid ∈ firstOccs refs
    · rw [if_pos hmem, if_neg this]
      rfl
    · rw [if_neg hmem]

/-- Witness for C9: the duplicate-issue clause applied at
`["3","3","4"]` and id `"3"`. -/
theorem C9_duplicate_footnotes_witness :
    (dupFootnoteIssues ["3", "3", "4"]).filter (isDupFor "3") =
      [Issue.dupFootnote "3" (List.count "3" ["3", "3", "4"])] :=
  (C9_duplicate_footnotes ["3", "3", "4"] "3").1 (by decide)

/-- C10 (implicit): the within-family "grid differs" branch is
unreachable — members of a group share the group's grid by construction,
so no such issue is ever emitted, for any output table list. -/
theorem C10_famgrid_unreachable (ts : List Table) :
    (∀ g : List String, famGridIssues ts (groupIndices ts g) = [])
  ∧ (loopFamilyIssues ts).filter isFamGrid = [] := by
  have part1 : ∀ g : List String, famGridIssues ts (groupIndices ts g) = [] := by
    intro g
    cases hgi : groupIndices ts g with
    | nil => rfl
    | cons i0 rest =>
        have hall : ∀ idx ∈ groupIndices ts g, (tableAt ts idx).grid = g := by
          intro idx hidx
          exact of_decide_eq_true (List.mem_filter.mp hidx).2
        have hg0 : (tableAt ts i0).grid = g :=
          hall i0 (hgi ▸ List.mem_cons_self i0 rest)
        rw [famGridIssues]
        refine flatMap_eq_nil_of _ _ ?_
        intro idx hidx
        have : (tableAt ts idx).grid = g := hall idx (hgi ▸ hidx)
        rw [if_neg (by rw [this, hg0]; exact fun hc => hc rfl)]
  refine ⟨part1, ?_⟩
  rw [loopFamilyIssues, List.filter_flatMap]
  refine flatMap_eq_nil_of _ _ ?_
  intro p hp
  rcases List.mem_filter.mp hp with ⟨hpmap, _⟩
  rcases List.mem_map.mp hpmap with ⟨k, _, hpk⟩
  rw [List.filter_append]
  have h1 : (famGridIssues ts p.2).filter isFamGrid = [] := by
    have : p.2 = groupIndices ts k := by rw [← hpk]
    rw [this, part1 k]
    rfl
  have h2 : (famCellCountIssues ts p.2).filter isFamGrid = [] := by
    rw [List.filter_eq_nil_iff]
    intro iss hiss
    rcases mem_famCellCountIssues_shape ts p.2 iss hiss with ⟨i, r, a, b, rfl⟩
    simp [isFamGrid]
  rw [h1, h2]
  rfl

/-- C8: for an output table with a non-empty grid, a row emits a span
anomaly iff its cells' span sum differs from the grid column count, and
then exactly one issue for that row; tables with an empty grid are skipped
entirely. -/
theorem C8_row_span (ts : List Table) (i ri : Nat) (hi : i < ts.length) :
    ((tableAt ts i).grid ≠ [] → ri < (tableAt ts i).rows.length →
      (spanAnomalies ts).filter (isSpanAnomalyAt i ri) =
        (if rowSpanSum ((tableAt ts i).rows.getD ri []) ≠ (tableAt ts i).grid.length
         then [Issue.spanAnomaly i ri (rowSpanSum ((tableAt ts i).rows.getD ri []))
                 (tableAt ts i).grid.length ((tableAt ts i).rows.getD ri []).length]
         else []))
  ∧ ((tableAt ts i).grid = [] →
      ∀ r s g n, Issue.spanAnomaly i r s g n ∉ spanAnomalies ts) := by
  constructor
  · intro hg hri
    have hstep : (List.range ts.length).flatMap
        (fun x => (spanTableIssues ts x).filter (isSpanAnomalyAt i ri)) =
        if i < ts.length
        then (spanTableIssues ts i).filter (isSpanAnomalyAt i ri) else [] := by
      refine range_flatMap_single ts.length i _ ?_
      intro x hx
      refine List.filter_eq_nil_iff.mpr ?_
      intro iss hiss
      rcases mem_spanTableIssues_shape ts x iss hiss with ⟨_, r', _, heq, _⟩
      rw [heq]
      simp [isSpanAnomalyAt, hx]
    rw [spanAnomalies, List.filter_flatMap, hstep, if_pos hi, spanTableIssues]
    have hgne : ¬((tableAt ts i).grid.length = 0) := by
      intro h0
      exact hg (List.length_eq_zero.mp h0)
    rw [if_neg hgne, List.filter_flatMap]
    have hstep2 : (List.range (tableAt ts i).rows.length).flatMap
        (fun r' => (spanRowIssues ts i r').filter (isSpanAnomalyAt i ri)) =
        if ri < (tableAt ts i).rows.length
        then (spanRowIssues ts i ri).filter (isSpanAnomalyAt i ri) else [] := by
      refine range_flatMap_single _ ri _ ?_
      intro r' hr'
      refine List.filter_eq_nil_iff.mpr ?_
      intro iss hiss
      rcases mem_spanRowIssues_shape ts i r' iss hiss with ⟨heq, _⟩
      rw [heq]
      simp [isSpanAnomalyAt, hr']
    rw [hstep2, if_pos hri]
    have hself : (spanRowIssues ts i ri).filter (isSpanAnomalyAt i ri) =
        spanRowIssues ts i ri := by
      refine List.filter_eq_self.mpr ?_
      intro iss hiss
      rcases mem_spanRowIssues_shape ts i ri iss hiss with ⟨heq, _⟩
      rw [heq]
      simp [isSpanAnomalyAt]
    rw [hself]
    rfl
  · intro hg r s g n hmem
    rcases List.mem_flatMap.mp hmem with ⟨i', _, hmem'⟩
    rcases mem_spanTableIssues_shape ts i' _ hmem' with ⟨hglen, r', _, heq, _⟩
    injection heq with e1 e2 e3 e4 e5
    rw [← e1] at hglen
    rw [hg] at hglen
    exact hglen rfl

/-- Witness for C8: on `spanTableEx` (grid of 2 columns), row 1 (span sum
1) yields exactly one anomaly and row 0 (span sum 2) yields none. -/
theorem C8_row_span_witness :
    (spanAnomalies [spanTableEx]).filter (isSpanAnomalyAt 0 1) =
      [Issue.spanAnomaly 0 1 1 2 1]
  ∧ (spanAnomalies [spanTableEx]).filter (isSpanAnomalyAt 0 0) = [] := by
  constructor
  · have h := (C8_row_span [spanTableEx] 0 1 (by decide)).1 (by decide) (by decide)
    rw [h]
    decide
  · have h := (C8_row_span [spanTableEx] 0 0 (by decide)).1 (by decide) (by decide)
    rw [h]
    decide

/-- C4 (amended): for a matched template/output table pair, a row in the
overlapping range whose cell counts differ emits exactly one row-level
cell-count issue and no per-cell issues for that row; rows beyond the
overlapping range `min(len(tpl_rows), len(out_rows))` emit no issues at
all. -/
theorem C4_row_diff (ti : Nat) (tpl out : Table) (ri : Nat) :
    (ri < Nat.min tpl.rows.length out.rows.length →
      (tpl.rows.getD ri []).length ≠ (out.rows.getD ri []).length →
      (tableDiffIssues ti tpl out).filter (mentionsRow ti ri) =
        [Issue.cellCountMismatch ti ri (tpl.rows.getD ri []).length
          (out.rows.getD ri []).length])
  ∧ (Nat.min tpl.rows.length out.rows.length ≤ ri →
      (tableDiffIssues ti tpl out).filter (mentionsRow ti ri) = []) := by
  have h1 : ((if tpl.grid ≠ out.grid
      then [Issue.gridMismatch ti tpl.grid out.grid] else []) :
        List Issue).filter (mentionsRow ti ri) = [] := by
    by_cases hc : tpl.grid ≠ out.grid
    · rw [if_pos hc]; rfl
    · rw [if_neg hc]; rfl
  have h2 : ((if tpl.tblW ≠ out.tblW
      then [Issue.tblWMismatch ti tpl.tblW out.tblW] else []) :
        List Issue).filter (mentionsRow ti ri) = [] := by
    by_cases hc : tpl.tblW ≠ out.tblW
    · rw [if_pos hc]; rfl
    · rw [if_neg hc]; rfl
  have hbase : (tableDiffIssues ti tpl out).filter (mentionsRow ti ri) =
      if ri < Nat.min tpl.rows.length out.rows.length
      then rowDiffIssues ti ri (tpl.rows.getD ri []) (out.rows.getD ri []) else [] := by
    rw [tableDiffIssues, List.filter_append, List.filter_append, h1, h2,
      List.filter_flatMap]
    have hstep : (List.range (Nat.min tpl.rows.length out.rows.length)).flatMap
        (fun r' => (rowDiffIssues ti r' (tpl.rows.getD r' [])
          (out.rows.getD r' [])).filter (mentionsRow ti ri)) =
        if ri < Nat.min tpl.rows.length out.rows.length
        then (rowDiffIssues ti ri (tpl.rows.getD ri [])
          (out.rows.getD ri [])).filter (mentionsRow ti ri) else [] := by
      refine range_flatMap_single _ ri _ ?_
      intro r' hr'
      exact filter_rowDiff_ne ti ri r' _ _ hr'
    rw [hstep, filter_rowDiff_self]
    simp
  constructor
  · intro hlt hne
    rw [hbase, if_pos hlt, rowDiffIssues, if_pos hne]
  · intro hge
    rw [hbase, if_neg (by omega)]

/-- Counterexample to C4 as stated: a matched pair whose template has two
rows and output one row (a row-count mismatch) produces no issue at all
for the beyond-overlap row — not the claimed single row-level issue. -/
theorem C4_beyond_overlap_counterexample :
    c4tpl.rows.length = 2 ∧ c4out.rows.length = 1
  ∧ tableDiffIssues 0 c4tpl c4out = []
  ∧ sectionFourIssues [c4tpl] [c4out] = [] := by
  decide

/-- Witness for C4: row 1 of `c4tplB`/`c4outB` (2 vs 1 cells, inside the
overlap) yields exactly the row-level issue; row 1 of `c4tpl`/`c4out` is
beyond the overlap and yields nothing. -/
theorem C4_row_diff_witness :
    (tableDiffIssues 0 c4tplB c4outB).filter (mentionsRow 0 1) =
      [Issue.cellCountMismatch 0 1 2 1]
  ∧ (tableDiffIssues 0 c4tpl c4out).filter (mentionsRow 0 1) = [] := by
  constructor
  · exact ((C4_row_diff 0 c4tplB c4outB 1).1 (by decide) (by decide)).trans (by decide)
  · exact (C4_row_diff 0 c4tpl c4out 1).2 (by decide)

/-- C7 (amended): within a loop-expansion family, a non-reference member
with the reference's row count is compared row by row, and a row emits the
family-specific cell-count issue iff its cell count differs from the
reference's corresponding row; a member whose row count differs from the
reference's is skipped entirely and emits no family cell-count issue.
The family issue is a distinct category from the §4.4 per-table
cell-count issue. -/
theorem C7_family_member_rows (ts : List Table) (i0 : Nat) (rest : List Nat)
    (idx : Nat) (hmem : idx ∈ rest) :
    ((tableAt ts idx).rows.length = (tableAt ts i0).rows.length →
      ∀ ri, ri < (tableAt ts idx).rows.length →
        (((tableAt ts idx).rows.getD ri []).length ≠
            ((tableAt ts i0).rows.getD ri []).length ↔
          Issue.famCellCount idx ri ((tableAt ts idx).rows.getD ri []).length
              ((tableAt ts i0).rows.getD ri []).length ∈
            famCellCountIssues ts (i0 :: rest)))
  ∧ ((tableAt ts idx).rows.length ≠ (tableAt ts i0).rows.length →
      ∀ ri a b, Issue.famCellCount idx ri a b ∉ famCellCountIssues ts (i0 :: rest))
  ∧ (∀ a b c d e f g h, Issue.famCellCount a b c d ≠ Issue.cellCountMismatch e f g h) := by
  have hred : famCellCountIssues ts (i0 :: rest) =
      rest.flatMap (famMemberIssues ts i0) := rfl
  refine ⟨?_, ?_, ?_⟩
  · intro hlen ri hri
    constructor
    · intro hne
      rw [hred]
      refine List.mem_flatMap.mpr ⟨idx, hmem, ?_⟩
      rw [famMemberIssues, if_neg (by simpa using hlen)]
      refine List.mem_flatMap.mpr ⟨ri, List.mem_range.mpr hri, ?_⟩
      rw [famRowIssues, if_pos hne]
      exact List.mem_singleton.mpr rfl
    · intro hmem'
      rw [hred] at hmem'
      rcases List.mem_flatMap.mp hmem' with ⟨idx', _, hin⟩
      rcases mem_famMemberIssues_shape ts i0 idx' _ hin with ⟨_, ri', _, heq, hne'⟩
      injection heq with e1 e2 e3 e4
      rw [← e1, ← e2] at hne'
      exact hne'
  · intro hlen ri a b hmem'
    rw [hred] at hmem'
    rcases List.mem_flatMap.mp hmem' with ⟨idx', _, hin⟩
    rcases mem_famMemberIssues_shape ts i0 idx' _ hin with ⟨hlen', _, _, heq, _⟩
    injection heq with e1 e2 e3 e4
    rw [← e1] at hlen'
    exact hlen hlen'
  · intro a b c d e f g h hc
    exact Issue.noConfusion hc

/-- Counterexample to C7 as stated: in the family `[famT0, famT1, famT2]`,
member `famT1`'s row count differs from the reference `famT0`'s, its row 0
cell count (3) differs from the reference's (2), yet the family check
emits no issue for it at all — only `famT2`'s divergent row is reported. -/
theorem C7_skipped_member_counterexample :
    famT1.rows.length ≠ famT0.rows.length
  ∧ (famT1.rows.getD 0 []).length ≠ (famT0.rows.getD 0 []).length
  ∧ groupIndices [famT0, famT1, famT2] ["100", "200"] = [0, 1, 2]
  ∧ loopFamilyIssues [famT0, famT1, famT2] = [Issue.famCellCount 2 1 3 2] := by
  decide

/-- Witness for C7: the iff applied to member `famT2` (same row count as
the reference), row 1, whose cell count 3 differs from the reference's 2. -/
theorem C7_family_member_rows_witness :
    Issue.famCellCount 2 1 ((tableAt [famT0, famT1, famT2] 2).rows.getD 1 []).length
        ((tableAt [famT0, famT1, famT2] 0).rows.getD 1 []).length ∈
      famCellCountIssues [famT0, famT1, famT2] [0, 1, 2] :=
  ((C7_family_member_rows [famT0, famT1, famT2] 0 [1, 2] 2 (by decide)).1
    (by decide) 1 (by decide)).mp (by decide)

/-- C1 (amended): for a document with no unresolved command text and
pairwise-distinct table labels, comparing it against itself yields zero
template-vs-output structural mismatch issues (grid, table-width,
cell-width, span, cell-count) and zero residual-command issues.  (The
output-only checks — loop-family cell counts and row-span anomalies —
are independent of the template and are not covered.) -/
theorem C1_self_comparison (d : Document) (fnDefs : Option (List String))
    (hlbl : (d.tables.map tableLabel).Nodup)
    (hcmd : ∀ c ∈ findCommands d.paras,
      isControl c.kind = false ∧ strStartsWith c.raw "$" = false) :
    (compareIssues d d fnDefs).filter isMatchOrResidual = [] := by
  have hres0 : residualIssues (findCommands d.paras) = [] := by
    rw [residualIssues]
    rw [List.filter_eq_nil_iff.mpr (fun c hc => by simp [(hcmd c hc).1])]
    rfl
  have hres : (residualIssues (findCommands d.paras)).filter isMatchOrResidual = [] := by
    rw [hres0]
    rfl
  have hunres0 : unresolvedFieldIssues (findCommands d.paras) = [] := by
    rw [unresolvedFieldIssues]
    rw [List.filter_eq_nil_iff.mpr (fun c hc => by simp [(hcmd c hc).2])]
    rfl
  have hunres : (unresolvedFieldIssues (findCommands d.paras)).filter
      isMatchOrResidual = [] := by
    rw [hunres0]
    rfl
  have hdup : (dupFootnoteIssues d.footnoteRefs).filter isMatchOrResidual = [] := by
    refine List.filter_eq_nil_iff.mpr ?_
    intro iss hiss
    rcases mem_dupFootnoteIssues_shape d.footnoteRefs iss hiss with ⟨f, c, rfl⟩
    simp [isMatchOrResidual]
  have hdang : (danglingIssues d.footnoteRefs fnDefs).filter isMatchOrResidual = [] := by
    refine List.filter_eq_nil_iff.mpr ?_
    intro iss hiss
    rcases mem_danglingIssues_shape d.footnoteRefs fnDefs iss hiss with ⟨f, rfl⟩
    simp [isMatchOrResidual]
  have hsec4 : sectionFourIssues d.tables d.tables = [] := by
    rw [sectionFourIssues]
    refine flatMap_eq_nil_of _ _ ?_
    intro ti hti
    rw [tplTableIssues]
    by_cases hskip : (strContains (tableLabel (tableAt d.tables ti)) "\x7bFOR"
        || strContains (tableLabel (tableAt d.tables ti)) "\x7b$") = true
    · simp [hskip]
    · simp only [Bool.not_eq_true] at hskip
      have hfind : findTableInOutput d.tables (tableLabel (tableAt d.tables ti)) =
          some ti :=
        findTableAux_self d.tables hlbl ti (List.mem_range.mp hti)
      simp only [hskip, Bool.false_eq_true, if_false, hfind]
      exact tableDiffIssues_self ti _
  have hfam : (loopFamilyIssues d.tables).filter isMatchOrResidual = [] := by
    refine List.filter_eq_nil_iff.mpr ?_
    intro iss hiss
    rcases List.mem_flatMap.mp hiss with ⟨p, _, hin⟩
    rcases List.mem_append.mp hin with h | h
    · rcases mem_famGridIssues_shape d.tables p.2 iss h with ⟨i, e, g, rfl⟩
      simp [isMatchOrResidual]
    · rcases mem_famCellCountIssues_shape d.tables p.2 iss h with ⟨i, r, a, b, rfl⟩
      simp [isMatchOrResidual]
  have hspan : (spanAnomalies d.tables).filter isMatchOrResidual = [] := by
    refine List.filter_eq_nil_iff.mpr ?_
    intro iss hiss
    rcases mem_spanAnomalies_shape d.tables iss hiss with ⟨i, r, s, g, n, rfl⟩
    simp [isMatchOrResidual]
  rw [compareIssues]
  simp only [List.filter_append]
  rw [hres, hunres, hdup, hdang, hsec4, hfam, hspan]
  rfl

/-- Counterexample to C1 as stated: a command-free document whose two
tables share a label but differ in grid; self-comparison matches the
second template table to the *first* output table and reports grid and
table-width mismatches. -/
theorem C1_self_comparison_counterexample :
    findCommands c1doc.paras = []
  ∧ compareIssues c1doc c1doc none =
      [Issue.gridMismatch 1 ["999"] ["100"],
       Issue.tblWMismatch 1 ("999", "dxa") ("100", "dxa")]
  ∧ (compareIssues c1doc c1doc none).filter isMatchOrResidual ≠ [] := by
  decide

/-- Witness for C1: a document with distinct table labels, a plain field
command and a duplicated footnote reference self-compares with zero
mismatch/residual issues. -/
theorem C1_self_comparison_witness :
    (compareIssues c1good c1good (some ["3"])).filter isMatchOrResidual = [] :=
  C1_self_comparison c1good (some ["3"]) (by decide) (by decide)

end InspectDocx
